import Mathlib

/-! # gologger: the custom logger and its service loop

A shallow embedding of `customLogger.go` and `conventions.go`.

* Go `string` and `[]byte` are both byte sequences: `List UInt8`.
* `time.Duration` is a signed 64-bit count of nanoseconds: an `Int`, multiplied with
  explicit wrap-around (`Duration.mul`).
* `func() string` reads the wall clock: a function of the clock reading `Clock`.
* `error` is `Option GoError`, `none` being `nil`.
* `fmt.Sprint`, `json.Marshal` and `time.Time.Format` are library functions, taken as
  parameters.
* The file system is a map from file names to contents; only the service loop writes to it.
* The `select` of the service loop is driven by a list of events, each carrying what the
  operating system answered (open, write and close results, clock reading).
-/

set_option maxRecDepth 100000

namespace Gologger

/-! ## Basic types -/

/-- A Go `[]byte`. -/
abbrev Bytes := List UInt8

/-- A Go `string`: an immutable byte sequence. -/
abbrev GoString := List UInt8

/-- The bytes of a string literal of ASCII characters. -/
def ascii (s : String) : GoString := s.toList.map (fun c => UInt8.ofNat c.toNat)

/-- A reading of the wall clock (`time.Now()`), in nanoseconds since the epoch. -/
abbrev Clock := Int

/-- A non-nil Go `error` value. -/
structure GoError where
  code : Nat
deriving DecidableEq, Repr

/-- A function value of type `func(oldFile string, newFile string)`, known by its identity:
its body runs on a goroutine of its own and is no part of the logger. -/
structure Callback where
  ident : Nat
deriving DecidableEq, Repr

/-! ## `time.Duration` -/

/-- Two's-complement wrap-around of an integer to the signed 64-bit range. -/
def wrapInt64 (x : Int) : Int := (x + 2 ^ 63) % 2 ^ 64 - 2 ^ 63

/-- Multiplication of two `time.Duration` values (`int64` nanoseconds). -/
def Duration.mul (a b : Int) : Int := wrapInt64 (a * b)

/-- Constant `time.Nanosecond`. -/
def Nanosecond : Int := 1
/-- Constant `time.Microsecond`. -/
def Microsecond : Int := Duration.mul 1000 Nanosecond
/-- Constant `time.Millisecond`. -/
def Millisecond : Int := Duration.mul 1000 Microsecond
/-- Constant `time.Second`. -/
def Second : Int := Duration.mul 1000 Millisecond
/-- Constant `time.Minute`. -/
def Minute : Int := Duration.mul 60 Second
/-- Constant `time.Hour`. -/
def Hour : Int := Duration.mul 60 Minute

/-! ## The logger -/

/-- The struct `CustomLogger`. The channel `queue` is the FIFO sequence of the payloads sent
and not yet received, `bufferSize` its capacity; the channel `close` carries no data and is
represented by the `close` event of the service loop.

`NameingConvention` is not a field of the struct in `customLogger.go`: it is the name
`conventions.go` assigns to. It is kept apart from `NamingConvention`, the field
`getFileName` reads, and is `none` (never assigned) in a new logger. -/
structure CustomLogger where
  Path : GoString
  Extention : GoString
  NamingConvention : Clock → GoString
  LineTerminator : GoString
  ValueSeperator : GoString
  ConventionUpdate : Int
  ConventionUpdated : Option Callback
  queue : List Bytes
  bufferSize : Nat
  NameingConvention : Option (Clock → GoString)

/-- The function `NewCustomLogger`. -/
def NewCustomLogger (path : GoString) (extention : GoString) (bufferSize : Nat) :
    CustomLogger :=
  { Extention := extention
    queue := []
    bufferSize := bufferSize
    NamingConvention := fun _ => []
    ConventionUpdate := Duration.mul (Duration.mul (Duration.mul Hour 24) 7) 2000
    LineTerminator := ascii "\n"
    Path := path
    ValueSeperator := ascii " "
    ConventionUpdated := none
    NameingConvention := none }

/-- A Go value of type `interface{}`: its dynamic type is `[]byte`, or something else. -/
inductive Value (α : Type) where
  | bytes (b : Bytes)
  | other (x : α)

/-- The body of the `for i, x := range input` loop of `convertInput`, from index `i` on. -/
def convertInputLoop {α : Type} (Sprint : Value α → GoString) (l : CustomLogger) :
    Nat → List (Value α) → Bytes → Bytes
  | _, [], payload => payload
  | i, x :: rest, payload =>
    let payload := if i != 0 then payload ++ l.ValueSeperator else payload
    let payload :=
      match x with
      | Value.bytes b => payload ++ b
      | x => payload ++ Sprint x
    convertInputLoop Sprint l (i + 1) rest payload

/-- The method `convertInput`; `Sprint` is `fmt.Sprint` at one operand. -/
def convertInput {α : Type} (Sprint : Value α → GoString) (l : CustomLogger)
    (input : List (Value α)) : Bytes :=
  convertInputLoop Sprint l 0 input []

/-- A completed send `l.queue <- payload`: the payload is the last in the queue. A send on a
full channel blocks until the loop has received; it completes with this same effect. -/
def send (l : CustomLogger) (payload : Bytes) : CustomLogger :=
  { l with queue := l.queue ++ [payload] }

/-- The method `Write`. -/
def Write {α : Type} (Sprint : Value α → GoString) (l : CustomLogger)
    (data : List (Value α)) : CustomLogger :=
  let payload := convertInput Sprint l data
  send l payload

/-- The method `WriteJSON`; `Marshal` is `json.Marshal`. -/
def WriteJSON {β : Type} (Marshal : β → Except GoError Bytes) (l : CustomLogger)
    (object : β) : CustomLogger :=
  match Marshal object with
  | Except.error _ => l
  | Except.ok b => send l b

/-- The method `QueueLength`. -/
def QueueLength (l : CustomLogger) : Nat := l.queue.length

/-- The method `getFileName`, called when the clock reads `now`. -/
def getFileName (l : CustomLogger) (now : Clock) : GoString :=
  l.Path ++ l.NamingConvention now ++ l.Extention

/-! ## `conventions.go` -/

/-- The function `SetNameConventionMonthYear`; `Format layout t` is `t.Format(layout)`. -/
def SetNameConventionMonthYear (Format : GoString → Clock → GoString) (logger : CustomLogger) :
    CustomLogger :=
  let logger := { logger with ConventionUpdate := Duration.mul Hour 24 }
  { logger with NameingConvention := some (fun now => Format (ascii "Jan-2006") now) }

/-- The function `SetNameConventionYear`. -/
def SetNameConventionYear (Format : GoString → Clock → GoString) (logger : CustomLogger) :
    CustomLogger :=
  let logger := { logger with ConventionUpdate := Duration.mul Hour 24 }
  { logger with NameingConvention := some (fun now => Format (ascii "2006") now) }

/-- The function `SetNameConventionDayMonthYear`. -/
def SetNameConventionDayMonthYear (Format : GoString → Clock → GoString)
    (logger : CustomLogger) : CustomLogger :=
  let logger := { logger with ConventionUpdate := Duration.mul Hour 24 }
  { logger with NameingConvention := some (fun now => Format (ascii "Monday-Jan-2006") now) }

/-! ## Files and handles -/

/-- The file system: the content of each file that exists, by name. -/
abbrev FileSystem := GoString → Option Bytes

/-- An open `*os.File`: the number of the open that made it and the file it was opened on. -/
structure Handle where
  id : Nat
  name : GoString
deriving DecidableEq, Repr

/-- What the service loop has done to its surroundings: the file system, the handles it has
opened (latest first), the handles it has closed (latest first) and the goroutines it has
started, each a callback with its two arguments (oldest first). -/
structure World where
  fs : FileSystem
  opened : List Handle
  closed : List Handle
  spawned : List (Callback × GoString × GoString)

/-- The surroundings of a service loop that has not started. -/
def World.init (fs : FileSystem) : World :=
  { fs := fs, opened := [], closed := [], spawned := [] }

/-- The handles opened and not closed. -/
def World.openHandles (w : World) : List Handle :=
  w.opened.filter (fun h => !(w.closed.contains h))

/-- The content of a file, empty when there is no file. -/
def content (fs : FileSystem) (name : GoString) : Bytes := (fs name).getD []

/-- File `name` with `b` appended (the file is made when it does not exist). -/
def appendFile (fs : FileSystem) (name : GoString) (b : Bytes) : FileSystem :=
  fun n => if n = name then some (content fs name ++ b) else fs n

/-- The call `os.OpenFile(fileName, os.O_APPEND|os.O_WRONLY|os.O_CREATE, 0600)`; `res` is the
error the operating system answers, `none` when it opens the file. -/
def OpenFile (w : World) (fileName : GoString) (res : Option GoError) :
    World × Except GoError Handle :=
  match res with
  | some err => (w, Except.error err)
  | none =>
    let file : Handle := { id := w.opened.length, name := fileName }
    ({ w with fs := appendFile w.fs fileName [], opened := file :: w.opened }, Except.ok file)

/-- The result of a `Write` on a handle: all bytes written, or an error after the first `n`
bytes. -/
inductive WriteResult where
  | ok
  | fail (n : Nat) (err : GoError)
deriving DecidableEq, Repr

/-- The bytes of `b` that reach the file in a write that answers `res`. -/
def WriteResult.written (res : WriteResult) (b : Bytes) : Bytes :=
  match res with
  | WriteResult.ok => b
  | WriteResult.fail n _ => b.take n

/-- The call `handle.Write(b)` on a handle opened with `O_APPEND`; its results are dropped by
the caller. -/
def fileWrite (w : World) (handle : Handle) (b : Bytes) (res : WriteResult) : World :=
  { w with fs := appendFile w.fs handle.name (res.written b) }

/-- The call `handle.Close()`; the error it returns is `res`. -/
def fileClose (w : World) (handle : Handle) (res : Option GoError) : World × Option GoError :=
  ({ w with closed := handle :: w.closed }, res)

/-- The method `getFileHandle`, called when the clock reads `now`. -/
def getFileHandle (l : CustomLogger) (w : World) (now : Clock) (res : Option GoError) :
    World × Except GoError (Handle × GoString) :=
  let fileName := getFileName l now
  match OpenFile w fileName res with
  | (w, Except.error err) => (w, Except.error err)
  | (w, Except.ok file) => (w, Except.ok (file, fileName))

/-! ## The service loop -/

/-- What the `select` of the service loop, or a sender, does next.
* `tick now res`: the ticker fires; the clock reads `now` and the open answers `res`.
* `data res`: a payload is received from `l.queue`; the write answers `res`.
* `close res`: the signal of `Close` is received; the close answers `res`.
* `enqueue payload`: another goroutine completes the send `l.queue <- payload`. -/
inductive Event where
  | tick (now : Clock) (res : Option GoError)
  | data (res : WriteResult)
  | close (res : Option GoError)
  | enqueue (payload : Bytes)
deriving DecidableEq, Repr

/-- The state of a running service loop: the logger, the surroundings and the local
variables `handle`, `fileName` and `newFileName`. -/
structure Loop where
  l : CustomLogger
  w : World
  handle : Handle
  fileName : GoString
  newFileName : GoString

/-- How far a call of `Service` has come: still in its loop, returned, or stopped by the
panic of `time.NewTicker`. -/
inductive Outcome where
  | running (s : Loop)
  | returned (err : Option GoError) (l : CustomLogger) (w : World)
  | panicked (l : CustomLogger) (w : World)

/-- The `for { select { ... } }` of `Service`. A `data` event on an empty queue cannot be
chosen by `select`: it leaves the loop waiting. -/
def serviceLoop : Loop → List Event → Outcome
  | s, [] => Outcome.running s
  | s, Event.tick now res :: evs =>
    match getFileHandle s.l s.w now res with
    | (w, Except.error err) => Outcome.returned (some err) s.l w
    | (w, Except.ok (handle, newFileName)) =>
      let fileName := newFileName
      let w :=
        match s.l.ConventionUpdated with
        | some cb => { w with spawned := w.spawned ++ [(cb, fileName, newFileName)] }
        | none => w
      serviceLoop
        { s with w := w, handle := handle, fileName := fileName, newFileName := newFileName } evs
  | s, Event.data res :: evs =>
    match s.l.queue with
    | [] => serviceLoop s evs
    | data :: rest =>
      let w := fileWrite s.w s.handle (data ++ s.l.LineTerminator) res
      serviceLoop { s with l := { s.l with queue := rest }, w := w } evs
  | s, Event.close res :: _ =>
    match fileClose s.w s.handle res with
    | (w, err) => Outcome.returned err s.l w
  | s, Event.enqueue payload :: evs =>
    serviceLoop { s with l := send s.l payload } evs

/-- The method `Service`, started when the clock reads `now` on the file system `fs`;
`res` is the answer to the first open. `time.NewTicker` panics on an interval that is not
positive. -/
def Service (l : CustomLogger) (fs : FileSystem) (now : Clock) (res : Option GoError)
    (evs : List Event) : Outcome :=
  match getFileHandle l (World.init fs) now res with
  | (w, Except.error err) => Outcome.returned (some err) l w
  | (w, Except.ok (handle, fileName)) =>
    if l.ConventionUpdate ≤ 0 then Outcome.panicked l w
    else
      serviceLoop
        { l := l, w := w, handle := handle, fileName := fileName, newFileName := [] } evs

/-- The value a call of `Service` has returned, if it has returned. -/
def Outcome.returnValue : Outcome → Option (Option GoError)
  | Outcome.returned err _ _ => some err
  | _ => none

/-- The surroundings a call of `Service` has left. -/
def Outcome.world : Outcome → World
  | Outcome.running s => s.w
  | Outcome.returned _ _ w => w
  | Outcome.panicked _ w => w

/-- The logger as a call of `Service` has left it. -/
def Outcome.logger : Outcome → CustomLogger
  | Outcome.running s => s.l
  | Outcome.returned _ l _ => l
  | Outcome.panicked l _ => l

/-- Whether a call of `Service` is still in its loop. -/
def Outcome.isRunning : Outcome → Bool
  | Outcome.running _ => true
  | _ => false

/-- The active handle of a call of `Service` that is still in its loop. -/
def Outcome.handle : Outcome → Option Handle
  | Outcome.running s => some s.handle
  | _ => none

/-! ## Vocabulary of the properties -/

/-- The rendering of one value, in the words of the specification: the bytes of a `[]byte`
unchanged, the bytes of `fmt.Sprint` of any other value. -/
def render {α : Type} (Sprint : Value α → GoString) : Value α → Bytes
  | Value.bytes b => b
  | Value.other x => Sprint (Value.other x)

/-- An event on which the loop returns: a tick whose open fails, or the shutdown signal. -/
def Event.stops : Event → Bool
  | Event.tick _ (some _) => true
  | Event.close _ => true
  | _ => false

/-- The value the loop returns on the first event of a list on which it returns. -/
def firstStop : List Event → Option (Option GoError)
  | [] => none
  | Event.tick _ (some err) :: _ => some (some err)
  | Event.close res :: _ => some res
  | _ :: evs => firstStop evs

/-- An event that is a rotation tick. -/
def Event.isTick : Event → Bool
  | Event.tick _ _ => true
  | _ => false

/-- An event that is a completed send, or the receipt of a payload whose write succeeds. -/
def Event.isQuiet : Event → Bool
  | Event.enqueue _ => true
  | Event.data WriteResult.ok => true
  | _ => false

/-- An event that is a completed send or the receipt of a payload, whatever the write
answers. -/
def Event.isTraffic : Event → Bool
  | Event.enqueue _ => true
  | Event.data _ => true
  | _ => false

/-- The payloads sent in a list of events, in order. -/
def sentPayloads : List Event → List Bytes
  | [] => []
  | Event.enqueue payload :: evs => payload :: sentPayloads evs
  | _ :: evs => sentPayloads evs

/-- The payloads received by the `data` events of a list of events, each with the answer to
its write, in order, when the queue is `q` at the start. -/
def received : List Bytes → List Event → List (Bytes × WriteResult)
  | _, [] => []
  | q, Event.enqueue payload :: evs => received (q ++ [payload]) evs
  | [], Event.data _ :: evs => received [] evs
  | payload :: q, Event.data res :: evs => (payload, res) :: received q evs
  | q, _ :: evs => received q evs

/-- The same events with every write succeeding. -/
def healWrites (evs : List Event) : List Event :=
  evs.map (fun e => match e with
    | Event.data _ => Event.data WriteResult.ok
    | e => e)

/-- A list of payloads as it stands in a file: each followed by the line terminator. -/
def written (l : CustomLogger) (payloads : List Bytes) : Bytes :=
  (payloads.map (fun p => p ++ l.LineTerminator)).flatten

/-! ## Example data -/

/-- A naming convention that changes at clock reading 10, from "Jan-2024" to "Feb-2024". -/
def exampleConvention (now : Clock) : GoString :=
  if now < 10 then ascii "Jan-2024" else ascii "Feb-2024"

/-- A logger on "log-" and ".txt" with the convention `exampleConvention`, a rotation check
every 24 hours and a callback. -/
def exampleLogger : CustomLogger :=
  { NewCustomLogger (ascii "log-") (ascii ".txt") 4 with
    NamingConvention := exampleConvention
    ConventionUpdate := Duration.mul Hour 24
    ConventionUpdated := some { ident := 1 } }

/-- A running loop of `exampleLogger` on the file "log-Jan-2024.txt", which holds a line,
with two payloads in the queue. -/
def exampleLoop : Loop :=
  { l := send (send exampleLogger (ascii "alpha")) (ascii "beta")
    w := { fs := fun n => if n = ascii "log-Jan-2024.txt" then some (ascii "old\n") else none
           opened := [{ id := 0, name := ascii "log-Jan-2024.txt" }]
           closed := []
           spawned := [] }
    handle := { id := 0, name := ascii "log-Jan-2024.txt" }
    fileName := ascii "log-Jan-2024.txt"
    newFileName := [] }

/-- A `json.Marshal` on numbers: it fails on 0 and answers the one byte `n` otherwise. -/
def exampleMarshal : Nat → Except GoError Bytes
  | 0 => Except.error { code := 1 }
  | n + 1 => Except.ok [UInt8.ofNat (n + 1)]

/-- A file system without files. -/
def emptyFS : FileSystem := fun _ => none

/-- A `fmt.Sprint` for values that are strings: the string itself. -/
def exampleSprint : Value GoString → GoString
  | Value.bytes b => b
  | Value.other x => x

/-- A `time.Time.Format` that answers "Jan-2024" whatever the layout and the clock. -/
def exampleFormat : GoString → Clock → GoString := fun _ _ => ascii "Jan-2024"

/-! # Properties -/

/-! ## The encoder -/

/-- The loop of `convertInput` past index 0 puts the separator before each value. -/
theorem convertInputLoop_succ {α : Type} (Sprint : Value α → GoString) (l : CustomLogger)
    (vs : List (Value α)) (i : Nat) (acc : Bytes) :
    convertInputLoop Sprint l (i + 1) vs acc =
      acc ++ (vs.map (fun v => l.ValueSeperator ++ render Sprint v)).flatten := by
  induction vs generalizing i acc with
  | nil => simp [convertInputLoop]
  | cons v rest ih =>
    cases v <;> simp [convertInputLoop, ih, render, List.append_assoc]

/-- Joining with a separator puts the separator before each element but the first. -/
theorem intercalate_cons_eq (sep : Bytes) (x : Bytes) (xs : List Bytes) :
    List.intercalate sep (x :: xs) = x ++ (xs.map (fun v => sep ++ v)).flatten := by
  induction xs generalizing x with
  | nil => simp [List.intercalate]
  | cons y ys ih =>
    have h := ih y
    simp only [List.intercalate] at h ⊢
    simp [List.intersperse, h]

/-- C1: the payload of a list of values is the renderings of the values joined by the
separator: nothing for the empty list, the rendering alone for one value, and the separator
between consecutive renderings only. -/
theorem convertInput_eq_intercalate {α : Type} (Sprint : Value α → GoString)
    (l : CustomLogger) (vs : List (Value α)) :
    convertInput Sprint l vs = List.intercalate l.ValueSeperator (vs.map (render Sprint))
    ∧ convertInput Sprint l ([] : List (Value α)) = []
    ∧ (∀ v : Value α, convertInput Sprint l [v] = render Sprint v)
    ∧ (∀ (v : Value α) (rest : List (Value α)),
        convertInput Sprint l (v :: rest) =
          render Sprint v ++
            (rest.map (fun x => l.ValueSeperator ++ render Sprint x)).flatten)
    ∧ (∀ b : Bytes, render Sprint (Value.bytes b) = b)
    ∧ (∀ x : α, render Sprint (Value.other x) = Sprint (Value.other x)) := by
  have hcons : ∀ (v : Value α) (rest : List (Value α)),
      convertInput Sprint l (v :: rest) =
        render Sprint v ++
          (rest.map (fun x => l.ValueSeperator ++ render Sprint x)).flatten := by
    intro v rest
    cases v <;> simp [convertInput, convertInputLoop, convertInputLoop_succ, render]
  refine ⟨?_, rfl, ?_, hcons, fun _ => rfl, fun _ => rfl⟩
  · cases vs with
    | nil => simp [convertInput, convertInputLoop, List.intercalate]
    | cons v rest =>
      rw [hcons, List.map_cons, intercalate_cons_eq, List.map_map]
      rfl
  · intro v
    simpa using hcons v []

/-! ## Construction and conventions -/

/-- The interval `time.Hour` is 3,600,000,000,000 ns, computed without wrap-around. -/
theorem Hour_eq : Hour = 3600000000000 := by
  simp [Hour, Minute, Second, Millisecond, Microsecond, Nanosecond, Duration.mul, wrapInt64]

/-- C9: a new logger names its file `path ++ extention` at every clock reading, ends lines
with "\n", separates values with " ", and checks the convention every
((24h*7)*2000) = 1,209,600,000,000,000,000 ns, a product that stays inside the signed 64-bit
range at each step and is positive; an open at a rotation tick is an open of the same name. -/
theorem NewCustomLogger_defaults (path extention : GoString) (bufferSize : Nat) :
    (∀ now : Clock, getFileName (NewCustomLogger path extention bufferSize) now
        = path ++ extention)
    ∧ (NewCustomLogger path extention bufferSize).LineTerminator = ascii "\n"
    ∧ (NewCustomLogger path extention bufferSize).ValueSeperator = ascii " "
    ∧ (NewCustomLogger path extention bufferSize).ConventionUpdate = 1209600000000000000
    ∧ (NewCustomLogger path extention bufferSize).ConventionUpdate = ((Hour * 24) * 7) * 2000
    ∧ Duration.mul Hour 24 = Hour * 24
    ∧ Duration.mul (Hour * 24) 7 = (Hour * 24) * 7
    ∧ Duration.mul ((Hour * 24) * 7) 2000 = ((Hour * 24) * 7) * 2000
    ∧ 0 < (NewCustomLogger path extention bufferSize).ConventionUpdate
    ∧ (NewCustomLogger path extention bufferSize).ConventionUpdate < 2 ^ 63
    ∧ (∀ (w : World) (now : Clock),
        (getFileHandle (NewCustomLogger path extention bufferSize) w now none).2
          = Except.ok ({ id := w.opened.length, name := path ++ extention },
              path ++ extention)) := by
  refine ⟨?_, rfl, rfl, ?_, ?_, ?_, ?_, ?_, ?_, ?_, ?_⟩
  · intro now
    simp [getFileName, NewCustomLogger]
  all_goals
    simp [NewCustomLogger, getFileHandle, getFileName, OpenFile, Hour_eq, Duration.mul,
      wrapInt64]

/-- The three setters of `conventions.go` set the interval to 24 hours and assign the
formatter to `NameingConvention`; the field `NamingConvention`, and with it `getFileName`,
and every other field stay as they were. -/
theorem SetNameConvention_fields (Format : GoString → Clock → GoString)
    (logger : CustomLogger) :
    (SetNameConventionMonthYear Format logger).ConventionUpdate = 86400000000000
    ∧ (SetNameConventionYear Format logger).ConventionUpdate = 86400000000000
    ∧ (SetNameConventionDayMonthYear Format logger).ConventionUpdate = 86400000000000
    ∧ (∀ now : Clock,
        getFileName (SetNameConventionMonthYear Format logger) now = getFileName logger now
        ∧ getFileName (SetNameConventionYear Format logger) now = getFileName logger now
        ∧ getFileName (SetNameConventionDayMonthYear Format logger) now
            = getFileName logger now)
    ∧ (∀ g ∈ [SetNameConventionMonthYear Format logger, SetNameConventionYear Format logger,
          SetNameConventionDayMonthYear Format logger],
        g.Path = logger.Path ∧ g.Extention = logger.Extention
        ∧ g.LineTerminator = logger.LineTerminator
        ∧ g.ValueSeperator = logger.ValueSeperator
        ∧ g.ConventionUpdated = logger.ConventionUpdated
        ∧ g.NamingConvention = logger.NamingConvention) := by
  simp [SetNameConventionMonthYear, SetNameConventionYear, SetNameConventionDayMonthYear,
    getFileName, Hour_eq, Duration.mul, wrapInt64]

/-- C8 (the code at a failing input): after `SetNameConventionMonthYear` on a new logger on
"log-" and ".txt", with a formatter that answers "Jan-2024", `getFileName` still returns
"log-.txt" and not "log-Jan-2024.txt": the formatter went to `NameingConvention`, which
`getFileName` does not read. -/
theorem SetNameConventionMonthYear_not_consulted :
    getFileName (SetNameConventionMonthYear exampleFormat
        (NewCustomLogger (ascii "log-") (ascii ".txt") 4)) 0 = ascii "log-.txt"
    ∧ getFileName (SetNameConventionMonthYear exampleFormat
        (NewCustomLogger (ascii "log-") (ascii ".txt") 4)) 0
      ≠ ascii "log-" ++ exampleFormat (ascii "Jan-2006") 0 ++ ascii ".txt"
    ∧ ascii "log-" ++ exampleFormat (ascii "Jan-2006") 0 ++ ascii ".txt"
      = ascii "log-Jan-2024.txt" := by
  decide

/-! ## The service loop: general lemmas -/

/-- Running the loop over two lists of events in a row. -/
theorem serviceLoop_append (s : Loop) (pre post : List Event) :
    serviceLoop s (pre ++ post) =
      match serviceLoop s pre with
      | Outcome.running s1 => serviceLoop s1 post
      | o => o := by
  induction pre generalizing s with
  | nil => simp [serviceLoop]
  | cons ev pre ih =>
    cases ev with
    | tick now res =>
      cases res with
      | none => simp [serviceLoop, getFileHandle, OpenFile, ih]
      | some err => simp [serviceLoop, getFileHandle, OpenFile]
    | data res =>
      cases hq : s.l.queue with
      | nil => simp [serviceLoop, hq, ih]
      | cons p q => simp [serviceLoop, hq, ih]
    | close res => simp [serviceLoop, fileClose]
    | enqueue p => simp [serviceLoop, ih]

/-- Running `Service` over two lists of events in a row. -/
theorem Service_append (l : CustomLogger) (fs : FileSystem) (now : Clock)
    (res : Option GoError) (pre post : List Event) :
    Service l fs now res (pre ++ post) =
      match Service l fs now res pre with
      | Outcome.running s1 => serviceLoop s1 post
      | o => o := by
  cases res with
  | some err => simp [Service, getFileHandle, OpenFile]
  | none =>
    by_cases h : l.ConventionUpdate ≤ 0
    · simp [Service, getFileHandle, OpenFile, h]
    · simp [Service, getFileHandle, OpenFile, h, serviceLoop_append]

/-- The loop returns what the first stopping event makes it return. -/
theorem serviceLoop_returnValue (s : Loop) (evs : List Event) :
    (serviceLoop s evs).returnValue = firstStop evs := by
  induction evs generalizing s with
  | nil => simp [serviceLoop, firstStop, Outcome.returnValue]
  | cons ev evs ih =>
    cases ev with
    | tick now res =>
      cases res with
      | none => simp [serviceLoop, getFileHandle, OpenFile, firstStop, ih]
      | some err =>
        simp [serviceLoop, getFileHandle, OpenFile, firstStop, Outcome.returnValue]
    | data res =>
      cases hq : s.l.queue with
      | nil => simp [serviceLoop, hq, firstStop, ih]
      | cons p q => simp [serviceLoop, hq, firstStop, ih]
    | close res => simp [serviceLoop, fileClose, firstStop, Outcome.returnValue]
    | enqueue p => simp [serviceLoop, firstStop, ih]

/-- The loop is still running exactly when no event made it return. -/
theorem serviceLoop_isRunning (s : Loop) (evs : List Event) :
    (serviceLoop s evs).isRunning = (firstStop evs).isNone := by
  induction evs generalizing s with
  | nil => simp [serviceLoop, firstStop, Outcome.isRunning]
  | cons ev evs ih =>
    cases ev with
    | tick now res =>
      cases res with
      | none => simp [serviceLoop, getFileHandle, OpenFile, firstStop, ih]
      | some err =>
        simp [serviceLoop, getFileHandle, OpenFile, firstStop, Outcome.isRunning]
    | data res =>
      cases hq : s.l.queue with
      | nil => simp [serviceLoop, hq, firstStop, ih]
      | cons p q => simp [serviceLoop, hq, firstStop, ih]
    | close res => simp [serviceLoop, fileClose, firstStop, Outcome.isRunning]
    | enqueue p => simp [serviceLoop, firstStop, ih]

/-- Where the first stopping event of a list is, when it makes the loop return `r`. -/
theorem firstStop_eq_some (evs : List Event) (r : Option GoError) :
    firstStop evs = some r ↔
      ∃ pre ev post, evs = pre ++ ev :: post ∧ (pre.all fun e => !e.stops) = true
        ∧ ((∃ now err, ev = Event.tick now (some err) ∧ r = some err)
            ∨ ev = Event.close r) := by
  induction evs with
  | nil => simp [firstStop]
  | cons e evs ih =>
    constructor
    · intro h
      by_cases hs : e.stops = true
      · refine ⟨[], e, evs, rfl, by simp, ?_⟩
        cases e with
        | tick now res =>
          cases res with
          | none => simp [Event.stops] at hs
          | some err =>
            left
            refine ⟨now, err, rfl, ?_⟩
            simpa [firstStop] using h.symm
        | data res => simp [Event.stops] at hs
        | close res =>
          right
          simp [firstStop] at h
          rw [h]
        | enqueue p => simp [Event.stops] at hs
      · have h1 : firstStop evs = some r := by
          cases e with
          | tick now res =>
            cases res with
            | none => simpa [firstStop] using h
            | some err => simp [Event.stops] at hs
          | data res => simpa [firstStop] using h
          | close res => simp [Event.stops] at hs
          | enqueue p => simpa [firstStop] using h
        obtain ⟨pre, ev, post, he, hp, hev⟩ := ih.mp h1
        refine ⟨e :: pre, ev, post, by simp [he], ?_, hev⟩
        simp only [List.all_cons, hp, Bool.and_true]
        simpa using hs
    · rintro ⟨pre, ev, post, he, hp, hev⟩
      cases pre with
      | nil =>
        simp only [List.nil_append, List.cons.injEq] at he
        obtain ⟨rfl, rfl⟩ := he
        rcases hev with ⟨now, err, rfl, rfl⟩ | rfl
        · simp [firstStop]
        · simp [firstStop]
      | cons e1 pre1 =>
        simp only [List.cons_append, List.cons.injEq] at he
        obtain ⟨rfl, he⟩ := he
        simp only [List.all_cons, Bool.and_eq_true] at hp
        have h1 : firstStop evs = some r := ih.mpr ⟨pre1, ev, post, he, hp.2, hev⟩
        have hs := hp.1
        cases e with
        | tick now res =>
          cases res with
          | none => simpa [firstStop] using h1
          | some err => simp [Event.stops] at hs
        | data res => simpa [firstStop] using h1
        | close res => simp [Event.stops] at hs
        | enqueue p => simpa [firstStop] using h1

/-- Making every write succeed changes no stopping event. -/
theorem firstStop_healWrites (evs : List Event) :
    firstStop (healWrites evs) = firstStop evs := by
  induction evs with
  | nil => rfl
  | cons e evs ih =>
    simp only [healWrites, List.map_cons] at ih ⊢
    cases e with
    | tick now res => cases res <;> simp [firstStop, ih]
    | data res => simp [firstStop, ih]
    | close res => simp [firstStop]
    | enqueue p => simp [firstStop, ih]

/-- The answers to the writes reach the content of the files only: two loops that differ in
the file system alone stay so, one on a list of events and the other on the same events with
every write succeeding. -/
theorem serviceLoop_healWrites (evs : List Event) (s1 s2 : Loop)
    (hl : s1.l = s2.l) (hh : s1.handle = s2.handle) (ho : s1.w.opened = s2.w.opened)
    (hc : s1.w.closed = s2.w.closed) (hs : s1.w.spawned = s2.w.spawned) :
    (serviceLoop s1 evs).handle = (serviceLoop s2 (healWrites evs)).handle
    ∧ (serviceLoop s1 evs).logger = (serviceLoop s2 (healWrites evs)).logger
    ∧ (serviceLoop s1 evs).world.opened = (serviceLoop s2 (healWrites evs)).world.opened
    ∧ (serviceLoop s1 evs).world.closed = (serviceLoop s2 (healWrites evs)).world.closed
    ∧ (serviceLoop s1 evs).world.spawned
        = (serviceLoop s2 (healWrites evs)).world.spawned := by
  induction evs generalizing s1 s2 with
  | nil =>
    simp [healWrites, serviceLoop, Outcome.handle, Outcome.logger, Outcome.world, hl, hh, ho,
      hc, hs]
  | cons e evs ih =>
    simp only [healWrites, List.map_cons] at ih ⊢
    cases e with
    | tick now res =>
      cases res with
      | some err =>
        simp [serviceLoop, getFileHandle, OpenFile, Outcome.handle, Outcome.logger,
          Outcome.world, hl, ho, hc, hs]
      | none =>
        cases hcb : s2.l.ConventionUpdated with
        | none =>
          simp only [serviceLoop, getFileHandle, OpenFile, hl, hcb, ho, getFileName]
          exact ih _ _ rfl rfl rfl hc hs
        | some cb =>
          simp only [serviceLoop, getFileHandle, OpenFile, hl, hcb, ho, getFileName]
          exact ih _ _ rfl rfl rfl hc (by simp [hs])
    | data res =>
      cases hq : s2.l.queue with
      | nil =>
        have hq1 : s1.l.queue = [] := by rw [hl, hq]
        simp only [serviceLoop, hq, hq1]
        exact ih _ _ hl hh ho hc hs
      | cons p q =>
        have hq1 : s1.l.queue = p :: q := by rw [hl, hq]
        simp only [serviceLoop, hq, hq1]
        exact ih _ _ (by simp [hl]) hh (by simp [fileWrite, ho]) (by simp [fileWrite, hc])
          (by simp [fileWrite, hs])
    | close res =>
      simp [serviceLoop, fileClose, Outcome.handle, Outcome.logger, Outcome.world, hl, hh, hc,
        ho, hs]
    | enqueue p =>
      simp only [serviceLoop]
      exact ih _ _ (by simp [hl]) hh ho hc hs

/-- The value `Service` returns: the error of the first open, or what the first stopping
event makes the loop return. -/
theorem Service_returnValue (l : CustomLogger) (fs : FileSystem) (now : Clock)
    (res : Option GoError) (evs : List Event) :
    (Service l fs now res evs).returnValue =
      match res with
      | some err => some (some err)
      | none => if l.ConventionUpdate ≤ 0 then none else firstStop evs := by
  cases res with
  | some err => simp [Service, getFileHandle, OpenFile, Outcome.returnValue]
  | none =>
    by_cases h : l.ConventionUpdate ≤ 0
    · simp [Service, getFileHandle, OpenFile, h, Outcome.returnValue]
    · simp [Service, getFileHandle, OpenFile, h, serviceLoop_returnValue]

/-- The handles of a running loop: each tick opens one more, none is closed, and the active
handle stays the latest opened. -/
theorem serviceLoop_handles (evs : List Event) (s : Loop)
    (hrun : (serviceLoop s evs).isRunning = true) :
    (serviceLoop s evs).world.opened.length
        = s.w.opened.length + (evs.filter Event.isTick).length
    ∧ (serviceLoop s evs).world.closed = s.w.closed
    ∧ (s.w.opened.head? = some s.handle →
        (serviceLoop s evs).world.opened.head? = (serviceLoop s evs).handle) := by
  induction evs generalizing s with
  | nil => simp [serviceLoop, Outcome.world, Outcome.handle]
  | cons e evs ih =>
    cases e with
    | tick now res =>
      cases res with
      | some err => simp [serviceLoop, getFileHandle, OpenFile, Outcome.isRunning] at hrun
      | none =>
        simp only [serviceLoop, getFileHandle, OpenFile] at hrun ⊢
        obtain ⟨h1, h2, h3⟩ := ih _ hrun
        refine ⟨?_, ?_, fun _ => h3 ?_⟩
        · rw [h1]
          cases s.l.ConventionUpdated <;>
            simp [List.filter_cons, Event.isTick] <;> omega
        · rw [h2]
          cases s.l.ConventionUpdated <;> rfl
        · cases s.l.ConventionUpdated <;> rfl
    | data res =>
      cases hq : s.l.queue with
      | nil =>
        simp only [serviceLoop, hq] at hrun ⊢
        simpa [List.filter_cons, Event.isTick] using ih _ hrun
      | cons p q =>
        simp only [serviceLoop, hq] at hrun ⊢
        simpa [List.filter_cons, Event.isTick, fileWrite] using ih _ hrun
    | close res => simp [serviceLoop, fileClose, Outcome.isRunning] at hrun
    | enqueue p =>
      simp only [serviceLoop] at hrun ⊢
      simpa [List.filter_cons, Event.isTick] using ih _ hrun

/-- The handles of a call of `Service` that is in its loop: one for the first open and one
more for each tick, none closed, the active one the latest opened. -/
theorem Service_handles (l : CustomLogger) (fs : FileSystem) (now : Clock)
    (res : Option GoError) (evs : List Event)
    (hrun : (Service l fs now res evs).isRunning = true) :
    (Service l fs now res evs).world.opened.length = 1 + (evs.filter Event.isTick).length
    ∧ (Service l fs now res evs).world.closed = []
    ∧ (Service l fs now res evs).world.opened.head? = (Service l fs now res evs).handle := by
  cases res with
  | some err => simp [Service, getFileHandle, OpenFile, Outcome.isRunning] at hrun
  | none =>
    by_cases h : l.ConventionUpdate ≤ 0
    · simp [Service, getFileHandle, OpenFile, h, Outcome.isRunning] at hrun
    · simp only [Service, getFileHandle, OpenFile, h, if_false] at hrun ⊢
      obtain ⟨h1, h2, h3⟩ := serviceLoop_handles evs _ hrun
      refine ⟨?_, ?_, h3 rfl⟩
      · rw [h1]
        simp [World.init, Nat.add_comm]
      · rw [h2]
        rfl

/-- The content of a file after an append to it. -/
theorem content_appendFile_self (fs : FileSystem) (name : GoString) (b : Bytes) :
    content (appendFile fs name b) name = content fs name ++ b := by
  simp [content, appendFile]

/-- An append to a file leaves the other files as they are. -/
theorem appendFile_of_ne (fs : FileSystem) (name n : GoString) (b : Bytes) (h : n ≠ name) :
    appendFile fs name b n = fs n := by
  simp [appendFile, h]

/-- The queue after a send. -/
theorem send_queue (l : CustomLogger) (p : Bytes) : (send l p).queue = l.queue ++ [p] := rfl

/-- A send does not change the line terminator. -/
theorem send_LineTerminator (l : CustomLogger) (p : Bytes) :
    (send l p).LineTerminator = l.LineTerminator := rfl

/-- Sends and receipts: the loop stays running on the same handle, the file of that handle
grows by what each write let through, in the order of receipt, the other files stay as they
are, and the payloads received followed by those still queued are the payloads queued at
the start followed by those sent. -/
theorem serviceLoop_traffic (evs : List Event) (s : Loop)
    (hev : (evs.all Event.isTraffic) = true) :
    (serviceLoop s evs).isRunning = true
    ∧ (serviceLoop s evs).handle = some s.handle
    ∧ content (serviceLoop s evs).world.fs s.handle.name
        = content s.w.fs s.handle.name
          ++ ((received s.l.queue evs).map
                (fun pr => pr.2.written (pr.1 ++ s.l.LineTerminator))).flatten
    ∧ (∀ n : GoString, n ≠ s.handle.name → (serviceLoop s evs).world.fs n = s.w.fs n)
    ∧ (received s.l.queue evs).map Prod.fst ++ (serviceLoop s evs).logger.queue
        = s.l.queue ++ sentPayloads evs
    ∧ (serviceLoop s evs).logger.LineTerminator = s.l.LineTerminator := by
  induction evs generalizing s with
  | nil =>
    simp [serviceLoop, received, sentPayloads, Outcome.isRunning, Outcome.handle,
      Outcome.world, Outcome.logger]
  | cons e evs ih =>
    simp only [List.all_cons, Bool.and_eq_true] at hev
    obtain ⟨he, hev⟩ := hev
    cases e with
    | tick now res => simp [Event.isTraffic] at he
    | close res => simp [Event.isTraffic] at he
    | enqueue p =>
      obtain ⟨h1, h2, h3, h4, h5, h6⟩ := ih { s with l := send s.l p } hev
      dsimp only at h3 h4 h5 h6
      simp only [send_queue, send_LineTerminator] at h3 h5 h6
      simp only [serviceLoop, received, sentPayloads]
      refine ⟨h1, h2, h3, h4, ?_, h6⟩
      rw [h5]
      simp
    | data res =>
      cases hq : s.l.queue with
      | nil =>
        obtain ⟨h1, h2, h3, h4, h5, h6⟩ := ih s hev
        rw [hq] at h3 h5
        simp only [serviceLoop, hq, received, sentPayloads]
        exact ⟨h1, h2, h3, h4, h5, h6⟩
      | cons p q =>
        obtain ⟨h1, h2, h3, h4, h5, h6⟩ :=
          ih { s with l := { s.l with queue := q },
                      w := fileWrite s.w s.handle (p ++ s.l.LineTerminator) res } hev
        dsimp only at h3 h4 h5 h6
        simp only [serviceLoop, hq, received, sentPayloads]
        refine ⟨h1, h2, ?_, ?_, ?_, h6⟩
        · rw [h3]
          simp [fileWrite, content_appendFile_self, List.append_assoc]
        · intro n hn
          rw [h4 n hn]
          simp [fileWrite, appendFile_of_ne _ _ _ _ hn]
        · simp only [List.map_cons, List.cons_append]
          rw [h5]

/-- Every write of a quiet list of events succeeds. -/
theorem received_of_quiet (evs : List Event) (q : List Bytes)
    (hev : (evs.all Event.isQuiet) = true) :
    ∀ pr ∈ received q evs, pr.2 = WriteResult.ok := by
  induction evs generalizing q with
  | nil => simp [received]
  | cons e evs ih =>
    simp only [List.all_cons, Bool.and_eq_true] at hev
    obtain ⟨he, hev⟩ := hev
    cases e with
    | tick now res => simp [Event.isQuiet] at he
    | close res => simp [Event.isQuiet] at he
    | enqueue p => simpa [received] using ih _ hev
    | data res =>
      cases res with
      | fail n err => simp [Event.isQuiet] at he
      | ok =>
        cases q with
        | nil => simpa [received] using ih _ hev
        | cons p q =>
          intro pr hpr
          simp only [received, List.mem_cons] at hpr
          rcases hpr with rfl | hpr
          · rfl
          · exact ih _ hev pr hpr

/-- A quiet event is a send or a receipt. -/
theorem isTraffic_of_isQuiet (evs : List Event) (hev : (evs.all Event.isQuiet) = true) :
    (evs.all Event.isTraffic) = true := by
  rw [List.all_eq_true] at hev ⊢
  intro e he
  have h := hev e he
  cases e with
  | tick now res => simp [Event.isQuiet] at h
  | close res => simp [Event.isQuiet] at h
  | enqueue p => rfl
  | data res => rfl

/-- What the writes let through when they all succeed. -/
theorem flatten_written_of_ok (l : CustomLogger) (prs : List (Bytes × WriteResult))
    (hok : ∀ pr ∈ prs, pr.2 = WriteResult.ok) :
    (prs.map (fun pr => pr.2.written (pr.1 ++ l.LineTerminator))).flatten
      = written l (prs.map Prod.fst) := by
  induction prs with
  | nil => simp [written]
  | cons pr prs ih =>
    have h1 : pr.2 = WriteResult.ok := hok pr (List.mem_cons_self _ _)
    have h2 := ih (fun x hx => hok x (List.mem_cons_of_mem _ hx))
    simp only [written, List.map_cons, List.flatten_cons, List.map_map] at h2 ⊢
    rw [h2, h1]
    simp [WriteResult.written]

/-- The payloads received by as many `data` events as there are payloads at the head of
the queue: those payloads, each with the answer to its write. -/
theorem received_data_zip (q q1 : List Bytes) (rs : List WriteResult) (evs : List Event)
    (hlen : rs.length = q.length) :
    received (q ++ q1) (rs.map Event.data ++ evs) = q.zip rs ++ received q1 evs := by
  induction q generalizing rs with
  | nil =>
    cases rs with
    | nil => simp
    | cons r rs => simp at hlen
  | cons p q ih =>
    cases rs with
    | nil => simp at hlen
    | cons r rs =>
      simp only [List.length_cons, Nat.add_right_cancel_iff] at hlen
      simp [received, ih rs hlen]

/-- The loop of `convertInput` reads the separator of the logger and nothing else of it. -/
theorem convertInputLoop_congr {α : Type} (Sprint : Value α → GoString)
    (l1 l2 : CustomLogger) (h : l1.ValueSeperator = l2.ValueSeperator)
    (vs : List (Value α)) (i : Nat) (acc : Bytes) :
    convertInputLoop Sprint l1 i vs acc = convertInputLoop Sprint l2 i vs acc := by
  induction vs generalizing i acc with
  | nil => rfl
  | cons v rest ih => simp only [convertInputLoop, h, ih]

/-- The logger after a list of calls of `Write`: the payloads are queued in call order. -/
theorem foldl_Write {α : Type} (Sprint : Value α → GoString) (ds : List (List (Value α)))
    (l : CustomLogger) :
    ds.foldl (Write Sprint) l
      = { l with queue := l.queue ++ ds.map (convertInput Sprint l) } := by
  induction ds generalizing l with
  | nil => simp
  | cons d ds ih =>
    have hc : convertInput Sprint (Write Sprint l d) = convertInput Sprint l := by
      funext vs
      exact convertInputLoop_congr Sprint (Write Sprint l d) l rfl vs 0 []
    rw [List.foldl_cons, ih, hc]
    simp [Write, send]

/-- `Service` over sends and receipts whose writes succeed: it is in its loop on the handle
of the first open, the file of that name has grown by the payloads received, each with the
terminator, and no other file has changed. -/
theorem Service_quiet (l : CustomLogger) (fs : FileSystem) (now : Clock) (evs : List Event)
    (hcu : 0 < l.ConventionUpdate) (hev : (evs.all Event.isQuiet) = true) :
    (Service l fs now none evs).isRunning = true
    ∧ (Service l fs now none evs).handle = some { id := 0, name := getFileName l now }
    ∧ content (Service l fs now none evs).world.fs (getFileName l now)
        = content fs (getFileName l now)
          ++ written l ((received l.queue evs).map Prod.fst)
    ∧ (∀ n : GoString, n ≠ getFileName l now →
        (Service l fs now none evs).world.fs n = fs n)
    ∧ (received l.queue evs).map Prod.fst ++ (Service l fs now none evs).logger.queue
        = l.queue ++ sentPayloads evs := by
  have h : ¬ l.ConventionUpdate ≤ 0 := not_le.mpr hcu
  have hS : Service l fs now none evs =
      serviceLoop
        { l := l
          w := { fs := appendFile fs (getFileName l now) []
                 opened := [{ id := 0, name := getFileName l now }]
                 closed := []
                 spawned := [] }
          handle := { id := 0, name := getFileName l now }
          fileName := getFileName l now
          newFileName := [] } evs := by
    simp [Service, getFileHandle, OpenFile, h, World.init]
  rw [hS]
  obtain ⟨h1, h2, h3, h4, h5, _⟩ :=
    serviceLoop_traffic evs
      { l := l
        w := { fs := appendFile fs (getFileName l now) []
               opened := [{ id := 0, name := getFileName l now }]
               closed := []
               spawned := [] }
        handle := { id := 0, name := getFileName l now }
        fileName := getFileName l now
        newFileName := [] } (isTraffic_of_isQuiet evs hev)
  dsimp only at h2 h3 h4 h5
  refine ⟨h1, h2, ?_, ?_, h5⟩
  · rw [h3, flatten_written_of_ok l _ (received_of_quiet evs l.queue hev)]
    simp [content_appendFile_self]
  · intro n hn
    rw [h4 n hn]
    simp [appendFile_of_ne _ _ _ _ hn]

/-- As many successful receipts as there are payloads in the queue receive the queue. -/
theorem received_replicate (q : List Bytes) :
    (received q (List.replicate q.length (Event.data WriteResult.ok))).map Prod.fst = q := by
  have h := received_data_zip q [] (List.replicate q.length WriteResult.ok) [] (by simp)
  simp only [List.append_nil, List.map_replicate] at h
  rw [h]
  simp [received, List.map_fst_zip]

/-! ## Delivery -/

/-- C2: value-lists enqueued with `Write` in order on a logger with an empty queue, then all
consumed by `Service` with no tick and no failing write: the loop is running on the file
named at the first open, the queue is empty, and the file holds what it held before followed
by the payload of each value-list with the line terminator, once each, in enqueue order. The
same holds however the sends and the receipts are interleaved, once the queue is empty. -/
theorem Service_writes_in_order {α : Type} (Sprint : Value α → GoString) (l : CustomLogger)
    (fs : FileSystem) (now : Clock) (ds : List (List (Value α)))
    (hq : l.queue = []) (hcu : 0 < l.ConventionUpdate) :
    (Service (ds.foldl (Write Sprint) l) fs now none
        (List.replicate ds.length (Event.data WriteResult.ok))).isRunning = true
    ∧ (Service (ds.foldl (Write Sprint) l) fs now none
        (List.replicate ds.length (Event.data WriteResult.ok))).handle
        = some { id := 0, name := getFileName l now }
    ∧ content (Service (ds.foldl (Write Sprint) l) fs now none
        (List.replicate ds.length (Event.data WriteResult.ok))).world.fs (getFileName l now)
        = content fs (getFileName l now)
          ++ (ds.map (fun d => convertInput Sprint l d ++ l.LineTerminator)).flatten
    ∧ (Service (ds.foldl (Write Sprint) l) fs now none
        (List.replicate ds.length (Event.data WriteResult.ok))).logger.queue = []
    ∧ (∀ evs : List Event, (evs.all Event.isQuiet) = true →
        (Service l fs now none evs).logger.queue = [] →
        content (Service l fs now none evs).world.fs (getFileName l now)
          = content fs (getFileName l now)
            ++ ((sentPayloads evs).map (fun p => p ++ l.LineTerminator)).flatten) := by
  have hevs : ((List.replicate ds.length (Event.data WriteResult.ok)).all Event.isQuiet)
      = true := by
    rw [List.all_eq_true]
    intro e he
    rw [List.eq_of_mem_replicate he]
    rfl
  have hl : ds.foldl (Write Sprint) l
      = { l with queue := ds.map (convertInput Sprint l) } := by
    rw [foldl_Write, hq, List.nil_append]
  obtain ⟨h1, h2, h3, _, h5⟩ :=
    Service_quiet (ds.foldl (Write Sprint) l) fs now
      (List.replicate ds.length (Event.data WriteResult.ok)) (by rw [hl]; exact hcu) hevs
  have hrec : (received (ds.foldl (Write Sprint) l).queue
      (List.replicate ds.length (Event.data WriteResult.ok))).map Prod.fst
        = ds.map (convertInput Sprint l) := by
    have h := received_replicate (ds.map (convertInput Sprint l))
    rw [List.length_map] at h
    rw [hl]
    exact h
  have hname : getFileName (ds.foldl (Write Sprint) l) now = getFileName l now := by
    rw [hl]
    rfl
  rw [hname] at h2 h3
  rw [hrec] at h3 h5
  refine ⟨h1, h2, ?_, ?_, ?_⟩
  · rw [h3, hl]
    simp [written, List.map_map, Function.comp_def]
  · have h6 : (sentPayloads (List.replicate ds.length (Event.data WriteResult.ok))) = [] := by
      generalize ds.length = n
      induction n with
      | zero => rfl
      | succ n ih => simpa [List.replicate_succ, sentPayloads] using ih
    have hqueue : (ds.foldl (Write Sprint) l).queue = ds.map (convertInput Sprint l) := by
      rw [hl]
    rw [h6, hqueue, List.append_nil] at h5
    exact List.append_right_eq_self.mp h5
  · intro evs hev hempty
    obtain ⟨_, _, k3, _, k5⟩ := Service_quiet l fs now evs hcu hev
    rw [hempty, List.append_nil] at k5
    rw [k3, k5, hq, List.nil_append]
    rfl

/-- A tick whose open succeeds: the loop goes on with a handle on the file the convention
names now. -/
theorem serviceLoop_tick (s : Loop) (now : Clock) (evs : List Event) :
    serviceLoop s (Event.tick now none :: evs) =
      serviceLoop
        { l := s.l
          w := { fs := appendFile s.w.fs (getFileName s.l now) []
                 opened := { id := s.w.opened.length, name := getFileName s.l now } :: s.w.opened
                 closed := s.w.closed
                 spawned :=
                   match s.l.ConventionUpdated with
                   | some cb =>
                     s.w.spawned ++ [(cb, getFileName s.l now, getFileName s.l now)]
                   | none => s.w.spawned }
          handle := { id := s.w.opened.length, name := getFileName s.l now }
          fileName := getFileName s.l now
          newFileName := getFileName s.l now } evs := by
  cases h : s.l.ConventionUpdated <;> simp [serviceLoop, getFileHandle, OpenFile, h]

/-- C3: after a rotation tick whose open succeeds on a file name other than that of the
handle so far, the loop runs on a handle of the new name; of the sends and receipts that
follow, every payload received goes to the file of the new name, with the line terminator,
as far as its write lets it through (whole when the writes succeed), in the order of
receipt; the file of the old name, and every file but the new, stays as it was. -/
theorem rotation_redirects_writes (s : Loop) (now : Clock) (evs : List Event)
    (hne : getFileName s.l now ≠ s.handle.name)
    (hev : (evs.all Event.isTraffic) = true) :
    (serviceLoop s (Event.tick now none :: evs)).isRunning = true
    ∧ (serviceLoop s (Event.tick now none :: evs)).handle
        = some { id := s.w.opened.length, name := getFileName s.l now }
    ∧ content (serviceLoop s (Event.tick now none :: evs)).world.fs (getFileName s.l now)
        = content s.w.fs (getFileName s.l now)
          ++ ((received s.l.queue evs).map
                (fun pr => pr.2.written (pr.1 ++ s.l.LineTerminator))).flatten
    ∧ ((evs.all Event.isQuiet) = true →
        content (serviceLoop s (Event.tick now none :: evs)).world.fs (getFileName s.l now)
          = content s.w.fs (getFileName s.l now)
            ++ (((received s.l.queue evs).map Prod.fst).map
                  (fun p => p ++ s.l.LineTerminator)).flatten)
    ∧ (serviceLoop s (Event.tick now none :: evs)).world.fs s.handle.name
        = s.w.fs s.handle.name
    ∧ (∀ n : GoString, n ≠ getFileName s.l now →
        (serviceLoop s (Event.tick now none :: evs)).world.fs n = s.w.fs n) := by
  rw [serviceLoop_tick]
  obtain ⟨h1, h2, h3, h4, _, _⟩ :=
    serviceLoop_traffic evs
      { l := s.l
        w := { fs := appendFile s.w.fs (getFileName s.l now) []
               opened := { id := s.w.opened.length, name := getFileName s.l now } :: s.w.opened
               closed := s.w.closed
               spawned :=
                 match s.l.ConventionUpdated with
                 | some cb =>
                   s.w.spawned ++ [(cb, getFileName s.l now, getFileName s.l now)]
                 | none => s.w.spawned }
        handle := { id := s.w.opened.length, name := getFileName s.l now }
        fileName := getFileName s.l now
        newFileName := getFileName s.l now } hev
  dsimp only at h2 h3 h4
  have hother : ∀ n : GoString, n ≠ getFileName s.l now →
      appendFile s.w.fs (getFileName s.l now) [] n = s.w.fs n :=
    fun n hn => appendFile_of_ne _ _ _ _ hn
  have h3a := h3
  rw [content_appendFile_self, List.append_nil] at h3a
  refine ⟨h1, h2, h3a, ?_, ?_, ?_⟩
  · intro hquiet
    rw [h3a, flatten_written_of_ok s.l _ (received_of_quiet evs s.l.queue hquiet)]
    rfl
  · rw [h4 _ (Ne.symm hne), hother _ (Ne.symm hne)]
  · intro n hn
    rw [h4 n hn, hother n hn]

/-- C3 (witness): `exampleLoop` at a tick when the convention has gone from "Jan-2024" to
"Feb-2024", followed by two receipts, the second with a failing write. -/
theorem rotation_redirects_writes_witness :
    getFileName exampleLoop.l 11 ≠ exampleLoop.handle.name
    ∧ content (serviceLoop exampleLoop
        [Event.tick 11 none, Event.data WriteResult.ok,
          Event.data (WriteResult.fail 2 { code := 5 })]).world.fs (ascii "log-Feb-2024.txt")
        = ascii "alpha\nbe"
    ∧ (serviceLoop exampleLoop
        [Event.tick 11 none, Event.data WriteResult.ok,
          Event.data (WriteResult.fail 2 { code := 5 })]).world.fs (ascii "log-Jan-2024.txt")
        = some (ascii "old\n") :=
  ⟨by decide,
    ((rotation_redirects_writes exampleLoop 11
      [Event.data WriteResult.ok, Event.data (WriteResult.fail 2 { code := 5 })]
      (by decide) (by decide)).2.2.1).trans (by decide),
    ((rotation_redirects_writes exampleLoop 11
      [Event.data WriteResult.ok, Event.data (WriteResult.fail 2 { code := 5 })]
      (by decide) (by decide)).2.2.2.2.1).trans (by decide)⟩

/-- C2 (witness): two calls of `Write` on `exampleLogger`, then two receipts. -/
theorem Service_writes_in_order_witness :
    exampleLogger.queue = [] ∧ 0 < exampleLogger.ConventionUpdate
    ∧ content (Service
        ([[Value.other (ascii "a"), Value.bytes (ascii "b")], [Value.other (ascii "c")]].foldl
          (Write exampleSprint) exampleLogger) emptyFS 0 none
        (List.replicate 2 (Event.data WriteResult.ok))).world.fs (ascii "log-Jan-2024.txt")
        = ascii "a b\nc\n" :=
  ⟨by decide, by decide,
    ((Service_writes_in_order exampleSprint exampleLogger emptyFS 0
      [[Value.other (ascii "a"), Value.bytes (ascii "b")], [Value.other (ascii "c")]]
      (by decide) (by decide)).2.2.1).trans (by decide)⟩

/-- Receipts, whatever their writes answer, are sends or receipts. -/
theorem all_isTraffic_data (rs : List WriteResult) (evs : List Event)
    (hev : (evs.all Event.isTraffic) = true) :
    ((rs.map Event.data ++ evs).all Event.isTraffic) = true := by
  rw [List.all_append, hev, Bool.and_true, List.all_eq_true]
  intro e he
  obtain ⟨r, _, rfl⟩ := List.mem_map.mp he
  rfl

/-- C7: when `json.Marshal` answers the bytes `b`, `WriteJSON` puts exactly `b` at the end
of the queue and changes nothing else, whatever the separator; once the payloads before it
have been received, a receipt whose write succeeds appends `b` and the line terminator to
the file of the active handle and touches no other file. When `json.Marshal` fails,
`WriteJSON` leaves the logger, and so the queue, as it was, and the loop runs as if the call
had not been made. -/
theorem WriteJSON_enqueues_or_drops {β : Type} (Marshal : β → Except GoError Bytes)
    (l : CustomLogger) (object : β) :
    (∀ b : Bytes, Marshal object = Except.ok b →
      WriteJSON Marshal l object = { l with queue := l.queue ++ [b] }
      ∧ (∀ sep : GoString,
          (WriteJSON Marshal { l with ValueSeperator := sep } object).queue = l.queue ++ [b])
      ∧ (∀ (s : Loop) (rs : List WriteResult), s.l = l → rs.length = l.queue.length →
          (serviceLoop { s with l := WriteJSON Marshal l object }
              (rs.map Event.data ++ [Event.data WriteResult.ok])).isRunning = true
          ∧ content (serviceLoop { s with l := WriteJSON Marshal l object }
              (rs.map Event.data ++ [Event.data WriteResult.ok])).world.fs s.handle.name
            = content (serviceLoop { s with l := WriteJSON Marshal l object }
                (rs.map Event.data)).world.fs s.handle.name ++ (b ++ l.LineTerminator)
          ∧ (∀ n : GoString, n ≠ s.handle.name →
              (serviceLoop { s with l := WriteJSON Marshal l object }
                (rs.map Event.data ++ [Event.data WriteResult.ok])).world.fs n = s.w.fs n)))
    ∧ (∀ e : GoError, Marshal object = Except.error e →
        WriteJSON Marshal l object = l
        ∧ (WriteJSON Marshal l object).queue = l.queue
        ∧ (∀ (s : Loop) (evs : List Event), s.l = l →
            serviceLoop { s with l := WriteJSON Marshal l object } evs = serviceLoop s evs)) := by
  constructor
  · intro b hb
    have hw : WriteJSON Marshal l object = { l with queue := l.queue ++ [b] } := by
      simp [WriteJSON, hb, send]
    refine ⟨hw, ?_, ?_⟩
    · intro sep
      simp [WriteJSON, hb, send]
    · intro s rs hs hlen
      rw [hw]
      have t2 := serviceLoop_traffic (rs.map Event.data ++ [Event.data WriteResult.ok])
        { s with l := { l with queue := l.queue ++ [b] } }
        (all_isTraffic_data rs _ (by decide))
      have t1 := serviceLoop_traffic (rs.map Event.data ++ [])
        { s with l := { l with queue := l.queue ++ [b] } }
        (all_isTraffic_data rs _ (by decide))
      obtain ⟨a1, _, a3, a4, _, _⟩ := t2
      obtain ⟨_, _, b3, _, _, _⟩ := t1
      dsimp only at a3 a4 b3
      rw [received_data_zip _ _ _ _ hlen] at a3 b3
      rw [List.append_nil] at b3
      refine ⟨a1, ?_, a4⟩
      rw [a3, b3]
      simp [received, WriteResult.written]
  · intro e he
    have hw : WriteJSON Marshal l object = l := by
      simp [WriteJSON, he]
    refine ⟨hw, by rw [hw], ?_⟩
    intro s evs hs
    rw [hw, ← hs]

/-- C7 (witness): `WriteJSON` on `exampleLogger` of an object that serializes to the byte
65, and of one that does not serialize. -/
theorem WriteJSON_enqueues_or_drops_witness :
    exampleMarshal 65 = Except.ok [65]
    ∧ (WriteJSON exampleMarshal exampleLogger 65).queue = [[65]]
    ∧ exampleMarshal 0 = Except.error { code := 1 }
    ∧ (WriteJSON exampleMarshal exampleLogger 0).queue = [] :=
  ⟨rfl,
    ((WriteJSON_enqueues_or_drops exampleMarshal exampleLogger 65).1 [65] rfl).2.1
      exampleLogger.ValueSeperator,
    rfl,
    ((WriteJSON_enqueues_or_drops exampleMarshal exampleLogger 0).2 { code := 1 } rfl).2.1⟩

/-! ## The rotation callback -/

/-- At a tick whose open succeeds, a callback that is set is started with the new file name
as both arguments: `fileName` is assigned `newFileName` before the call. -/
theorem tick_callback_arguments (s : Loop) (now : Clock) (cb : Callback)
    (hcb : s.l.ConventionUpdated = some cb) :
    (serviceLoop s [Event.tick now none]).world.spawned
      = s.w.spawned ++ [(cb, getFileName s.l now, getFileName s.l now)] := by
  rw [serviceLoop_tick]
  simp [serviceLoop, Outcome.world, hcb]

/-- C4 (the code at a failing input): `exampleLogger` starts on "log-Jan-2024.txt"; at a
tick when the convention answers "Feb-2024" the loop goes on to "log-Feb-2024.txt" and
starts the callback with ("log-Feb-2024.txt", "log-Feb-2024.txt"), not with
("log-Jan-2024.txt", "log-Feb-2024.txt"). -/
theorem ConventionUpdated_gets_new_name_twice :
    (Service exampleLogger emptyFS 0 none []).handle
      = some { id := 0, name := ascii "log-Jan-2024.txt" }
    ∧ (Service exampleLogger emptyFS 0 none [Event.tick 11 none]).handle
      = some { id := 1, name := ascii "log-Feb-2024.txt" }
    ∧ (Service exampleLogger emptyFS 0 none [Event.tick 11 none]).world.spawned
      = [({ ident := 1 }, ascii "log-Feb-2024.txt", ascii "log-Feb-2024.txt")]
    ∧ (Service exampleLogger emptyFS 0 none [Event.tick 11 none]).world.spawned
      ≠ [({ ident := 1 }, ascii "log-Jan-2024.txt", ascii "log-Feb-2024.txt")] := by
  decide

/-! ## Errors -/

/-- C5: `Service` returns the non-nil error `e` exactly when the first open fails with `e`,
or a rotation tick the loop handles fails to open with `e`, or the close at shutdown fails
with `e`. A failed first open returns before any event and leaves everything as it was; a
failed open at a tick returns at once, whatever events follow. The answers to the writes
change neither the value returned nor the handles: after a `data` event the loop is still
running with the same handle. -/
theorem Service_error_iff (l : CustomLogger) (fs : FileSystem) (now : Clock)
    (res : Option GoError) (evs : List Event) :
    (∀ e : GoError, (Service l fs now res evs).returnValue = some (some e) ↔
      (res = some e
        ∨ (res = none ∧ 0 < l.ConventionUpdate ∧ ∃ pre now1 post,
            evs = pre ++ Event.tick now1 (some e) :: post
              ∧ (pre.all fun ev => !ev.stops) = true)
        ∨ (res = none ∧ 0 < l.ConventionUpdate ∧ ∃ pre post,
            evs = pre ++ Event.close (some e) :: post
              ∧ (pre.all fun ev => !ev.stops) = true)))
    ∧ (∀ e : GoError,
        Service l fs now (some e) evs = Outcome.returned (some e) l (World.init fs))
    ∧ (∀ (pre post : List Event) (now1 : Clock) (e : GoError),
        Service l fs now res (pre ++ Event.tick now1 (some e) :: post) =
          match Service l fs now res pre with
          | Outcome.running s => Outcome.returned (some e) s.l s.w
          | o => o)
    ∧ (Service l fs now res (healWrites evs)).returnValue
        = (Service l fs now res evs).returnValue
    ∧ (Service l fs now res (healWrites evs)).handle = (Service l fs now res evs).handle
    ∧ (Service l fs now res (healWrites evs)).world.opened
        = (Service l fs now res evs).world.opened
    ∧ (∀ (s : Loop) (wr : WriteResult),
        (serviceLoop s [Event.data wr]).isRunning = true
        ∧ (serviceLoop s [Event.data wr]).handle = some s.handle) := by
  refine ⟨?_, ?_, ?_, ?_, ?_, ?_, ?_⟩
  · intro e
    rw [Service_returnValue]
    cases res with
    | some err =>
      simp only [Option.some.injEq, reduceCtorEq, false_and, or_false]
    | none =>
      by_cases h : l.ConventionUpdate ≤ 0
      · have h0 : ¬ 0 < l.ConventionUpdate := not_lt.mpr h
        simp [h, h0]
      · have h0 : 0 < l.ConventionUpdate := not_le.mp h
        simp only [h, if_false, reduceCtorEq, false_or, true_and, h0]
        rw [firstStop_eq_some]
        constructor
        · rintro ⟨pre, ev, post, he, hp, hev⟩
          rcases hev with ⟨now1, err, rfl, herr⟩ | rfl
          · left
            simp only [Option.some.injEq] at herr
            subst herr
            exact ⟨pre, now1, post, he, hp⟩
          · right
            exact ⟨pre, post, he, hp⟩
        · rintro (⟨pre, now1, post, he, hp⟩ | ⟨pre, post, he, hp⟩)
          · exact ⟨pre, _, post, he, hp, Or.inl ⟨now1, e, rfl, rfl⟩⟩
          · exact ⟨pre, _, post, he, hp, Or.inr rfl⟩
  · intro e
    simp [Service, getFileHandle, OpenFile]
  · intro pre post now1 e
    rw [Service_append]
    cases Service l fs now res pre with
    | running s => simp [serviceLoop, getFileHandle, OpenFile]
    | returned err l1 w1 => rfl
    | panicked l1 w1 => rfl
  · simp only [Service_returnValue, firstStop_healWrites]
  · cases res with
    | some err => simp [Service, getFileHandle, OpenFile]
    | none =>
      by_cases h : l.ConventionUpdate ≤ 0
      · simp [Service, getFileHandle, OpenFile, h]
      · simp only [Service, getFileHandle, OpenFile, h, if_false]
        exact ((serviceLoop_healWrites evs _ _ rfl rfl rfl rfl rfl).1).symm
  · cases res with
    | some err => simp [Service, getFileHandle, OpenFile]
    | none =>
      by_cases h : l.ConventionUpdate ≤ 0
      · simp [Service, getFileHandle, OpenFile, h]
      · simp only [Service, getFileHandle, OpenFile, h, if_false]
        exact ((serviceLoop_healWrites evs _ _ rfl rfl rfl rfl rfl).2.2.1).symm
  · intro s wr
    cases hq : s.l.queue with
    | nil => simp [serviceLoop, hq, Outcome.isRunning, Outcome.handle]
    | cons p q => simp [serviceLoop, hq, Outcome.isRunning, Outcome.handle]

/-- C6: on the shutdown signal a running loop closes its active handle, returns the result
of that close, and handles none of the events that follow: the queue and the files are left
as they were. The handle it closes is the latest the loop opened, and the loop had closed
none before. -/
theorem Service_shutdown (l : CustomLogger) (fs : FileSystem) (now : Clock)
    (res : Option GoError) (pre post : List Event) (r : Option GoError) :
    Service l fs now res (pre ++ Event.close r :: post) =
      (match Service l fs now res pre with
       | Outcome.running s =>
         Outcome.returned r s.l { s.w with closed := s.handle :: s.w.closed }
       | o => o)
    ∧ (∀ h : Handle, (Service l fs now res pre).handle = some h →
        (Service l fs now res pre).world.opened.head? = some h
        ∧ (Service l fs now res pre).world.closed = []) := by
  constructor
  · rw [Service_append]
    cases Service l fs now res pre with
    | running s => simp [serviceLoop, fileClose]
    | returned err l1 w1 => rfl
    | panicked l1 w1 => rfl
  · intro h hh
    have hrun : (Service l fs now res pre).isRunning = true := by
      cases hS : Service l fs now res pre with
      | running s => rfl
      | returned err l1 w1 => rw [hS] at hh; simp [Outcome.handle] at hh
      | panicked l1 w1 => rw [hS] at hh; simp [Outcome.handle] at hh
    obtain ⟨_, h2, h3⟩ := Service_handles l fs now res pre hrun
    exact ⟨by rw [h3, hh], h2⟩

/-! ## Handles -/

/-- C10 (amended): while `Service` is in its loop, the handles it has opened and not closed
are one more than the rotation ticks it has handled; none has been closed, and the active
handle is the latest opened. -/
theorem Service_open_handles (l : CustomLogger) (fs : FileSystem) (now : Clock)
    (res : Option GoError) (evs : List Event)
    (hrun : (Service l fs now res evs).isRunning = true) :
    (Service l fs now res evs).world.openHandles.length
        = 1 + (evs.filter Event.isTick).length
    ∧ (Service l fs now res evs).world.closed = []
    ∧ (Service l fs now res evs).world.opened.head? = (Service l fs now res evs).handle := by
  obtain ⟨h1, h2, h3⟩ := Service_handles l fs now res evs hrun
  refine ⟨?_, h2, h3⟩
  rw [← h1]
  simp [World.openHandles, h2]

/-- C10 (witness): after the first open and two ticks, three handles are open. -/
theorem Service_open_handles_witness :
    (Service exampleLogger emptyFS 0 none
        [Event.tick 5 none, Event.data WriteResult.ok, Event.tick 11 none]).isRunning = true
    ∧ (Service exampleLogger emptyFS 0 none
        [Event.tick 5 none, Event.data WriteResult.ok, Event.tick 11 none]).world.openHandles.length
        = 1 + 2 :=
  ⟨by decide, (Service_open_handles exampleLogger emptyFS 0 none
      [Event.tick 5 none, Event.data WriteResult.ok, Event.tick 11 none] (by decide)).1⟩

/-- C10 (counterexample): after the first open and one rotation tick the loop is running
with two handles opened and not closed, not one. -/
theorem Service_two_open_handles :
    (Service exampleLogger emptyFS 0 none [Event.tick 11 none]).isRunning = true
    ∧ (Service exampleLogger emptyFS 0 none [Event.tick 11 none]).world.openHandles.length = 2
    ∧ (Service exampleLogger emptyFS 0 none [Event.tick 11 none]).world.openHandles.length
        ≠ 1 := by
  decide

end Gologger
